import Mathlib

/-!
Verification of the crypto_asset portfolio tracker's core pipeline.

This file shallowly embeds the Python services of the repository
(`backend/app/services/...` and `backend/app/core/database.py`) as
executable Lean definitions and proves or refutes the specification
claims about them.

Modelling conventions:
* Python floats are modelled as exact rationals; every arithmetic
  operation performed by the code is a single multiplication or
  comparison, so the rational model agrees with the float run wherever a
  claim's tolerance exceeds one rounding error.
* Wall-clock instants are rationals (`time.time()`) or integers
  (`int(time.time())`, explicit timestamps) as in the code.
* Python strings are modelled by Lean strings; `str.upper`, `str.lower`,
  `str.strip`, `in` and friends are given explicit ASCII models below
  (the symbols, chain names and cache keys involved are ASCII).
* Database tables and dicts are association lists kept in insertion
  order, matching sqlite row order and Python dict iteration order for
  the reads the services perform (first match or keyed lookup).
* Network calls, the async runtime and exceptions are made explicit:
  fallible paths return `Except`/`Option`, outcomes of external calls
  are passed in as parameters, and side-effect order is recorded as an
  event list where a claim depends on it.
-/

namespace CryptoAsset

/-! ## Python string primitives -/

/-- ASCII model of Python's `str.upper` on one character. -/
def pyUpperChar (c : Char) : Char :=
  if 'a' ≤ c ∧ c ≤ 'z' then Char.ofNat (c.toNat - 32) else c

/-- ASCII model of Python's `str.lower` on one character. -/
def pyLowerChar (c : Char) : Char :=
  if 'A' ≤ c ∧ c ≤ 'Z' then Char.ofNat (c.toNat + 32) else c

/-- ASCII model of Python's `str.upper`. -/
def pyUpper (s : String) : String :=
  ⟨s.data.map pyUpperChar⟩

/-- ASCII model of Python's `str.lower`. -/
def pyLower (s : String) : String :=
  ⟨s.data.map pyLowerChar⟩

/-- Characters removed by Python's `str.strip()` (ASCII whitespace). -/
def pyIsSpace (c : Char) : Bool :=
  c = ' ' || c = '\t' || c = '\n' || c = '\x0d' || c = '\x0b' || c = '\x0c'

/-- ASCII model of Python's `str.strip()`. -/
def pyStrip (s : String) : String :=
  ⟨((s.data.dropWhile pyIsSpace).reverse.dropWhile pyIsSpace).reverse⟩

/-- Model of Python's `haystack.startswith(needle)` on char lists. -/
def pyStartsWithL (hay needle : List Char) : Bool :=
  needle.isPrefixOf hay

/-- Model of Python's `haystack.startswith(needle)`. -/
def pyStartsWith (hay needle : String) : Bool :=
  pyStartsWithL hay.data needle.data

/-- Model of Python's `haystack.endswith(needle)`. -/
def pyEndsWith (hay needle : String) : Bool :=
  needle.data.isSuffixOf hay.data

/-- Model of Python's substring test `needle in haystack` on char
lists. -/
def containsSub (hay needle : List Char) : Bool :=
  needle.isPrefixOf hay ||
  match hay with
  | [] => false
  | _ :: t => containsSub t needle

/-- Model of Python's substring test `needle in haystack`. -/
def pyContains (hay needle : String) : Bool :=
  containsSub hay.data needle.data

/-! ## History timestamp writers (claim C2)

`HistoryCacheService._align_to_hour` runs
`datetime.fromtimestamp(timestamp).replace(minute=0, second=0,
microsecond=0).timestamp()`.  `datetime.fromtimestamp` uses the local
timezone.  For a process whose local offset from UTC is a fixed `off`
seconds, the wall-clock second count of instant `t` is `t + off`;
zeroing minute and second floors that count to a multiple of 3600, and
converting back subtracts `off` again.  Python's `%` on ints is
floor-mod, which `Int.emod` with a positive modulus matches. -/

/-- Model of `HistoryCacheService._align_to_hour` for a process running
with a fixed local-timezone offset of `off` seconds east of UTC. -/
def alignToHour (off t : Int) : Int :=
  t - (t + off) % 3600

/-- Timestamp stored by `HistoryCacheService.save_price_history` when
called at instant `t` (it aligns with `_align_to_hour` before the
`INSERT OR REPLACE INTO price_history`). -/
def priceHistoryStoredTs (off t : Int) : Int :=
  alignToHour off t

/-- Timestamp stored by `HistoryCacheService.save_balance_history` when
called at instant `t` (same alignment before the
`INSERT OR REPLACE INTO balance_history`). -/
def balanceHistoryStoredTs (off t : Int) : Int :=
  alignToHour off t

/-- Timestamp stored by
`EnhancedHistoryService._collect_portfolio_snapshot`, which computes
`timestamp = int(time.time())` and hands it unchanged to
`_save_enhanced_snapshot` for both the `portfolio_snapshots` row and
every `asset_snapshots_enhanced` row.  No alignment is applied. -/
def snapshotStoredTs (t : Int) : Int :=
  t

/-! ## Asset valuation and snapshot rows (claim C3)

`AssetService.get_detailed_assets` computes
`value_usdc = quantity * price_usdc if quantity > 0 and price_usdc > 0
else 0.0` (the same formula appears in
`DatabaseAssetService.get_detailed_assets`), and
`EnhancedHistoryService._save_enhanced_snapshot` stores the triple
`(quantity, price_usdc, value_usdc)` unchanged into
`asset_snapshots_enhanced`. -/

/-- Model of the per-row value computation in
`AssetService.get_detailed_assets`. -/
def computeValueUsdc (quantity priceUsdc : ℚ) : ℚ :=
  if 0 < quantity ∧ 0 < priceUsdc then quantity * priceUsdc else 0

/-- One row of the `asset_snapshots_enhanced` table as written by
`EnhancedHistoryService._save_enhanced_snapshot`. -/
structure EnhancedSnapshotRow where
  quantity : ℚ
  priceUsdc : ℚ
  valueUsdc : ℚ
  deriving DecidableEq, Repr

/-- Snapshot row produced for an asset whose valuation ran with the
given balance and price: `_save_enhanced_snapshot` stores the values
computed by `get_detailed_assets` verbatim. -/
def saveEnhancedSnapshotRow (quantity priceUsdc : ℚ) : EnhancedSnapshotRow :=
  { quantity := quantity
    priceUsdc := priceUsdc
    valueUsdc := computeValueUsdc quantity priceUsdc }

/-! ## Price engine: memory TTL cache and cache keys (claims C5, C6, C10)

`PriceService.price_cache` is a `PriceCache` instance: a dict from key
to `(price, timestamp)` pairs with a TTL.  `get_token_price_usdc` keys
it by `f"TOKEN.upper()_chain or default"` while
`get_multiple_prices_batch` keys it by
`f"symbol.strip().lower()_chain.strip() or default"`. -/

/-- Model of the Python expression `chain_name or "default"` over an
optional chain name (`None` and the empty string are falsy). -/
def chainOrDefault (chain : Option String) : String :=
  match chain with
  | none => "default"
  | some c => if c = "" then "default" else c

/-- Cache key built by `PriceService.get_token_price_usdc` (and by its
exception handler): upper-cased symbol, underscore, chain or
"default". -/
def singlePriceCacheKey (sym : String) (chain : Option String) : String :=
  pyUpper sym ++ "_" ++ chainOrDefault chain

/-- Cache key built by `PriceService.get_multiple_prices_batch`:
stripped lower-cased symbol, underscore, stripped chain or "default". -/
def batchPriceCacheKey (sym : String) (chain : Option String) : String :=
  pyLower (pyStrip sym) ++ "_" ++ chainOrDefault (chain.map pyStrip)

/-- One entry of the in-memory `PriceCache` dict: key, price and the
`time.time()` at which it was stored. -/
abbrev PriceCacheEntry := String × ℚ × ℚ

/-- Model of `PriceCache.get`: a fresh entry (age strictly below the
TTL) returns its price; an expired entry is deleted and `None` is
returned.  The pair carries the possibly-updated dict. -/
def priceCacheGet (cache : List PriceCacheEntry) (key : String)
    (now ttl : ℚ) : Option ℚ × List PriceCacheEntry :=
  match cache.find? (fun e => e.1 = key) with
  | some e =>
    if now - e.2.2 < ttl then (some e.2.1, cache)
    else (none, cache.filter (fun e2 => e2.1 ≠ key))
  | none => (none, cache)

/-- Model of `PriceCache.set`: dict assignment keeps the position of an
existing key and appends a new key at the end. -/
def priceCacheSet (cache : List PriceCacheEntry) (key : String)
    (price now : ℚ) : List PriceCacheEntry :=
  if cache.any (fun e => e.1 = key) then
    cache.map (fun e => if e.1 = key then (key, price, now) else e)
  else cache ++ [(key, price, now)]

/-- Mutable fields of `PriceService` relevant to caching and degraded
mode: the memory cache with its TTL, the degraded-mode latch with its
expiry instant, and `error_stats["consecutive_failures"]`. -/
structure PriceServiceState where
  cache : List PriceCacheEntry
  ttl : ℚ
  degradedMode : Bool
  degradedModeUntil : ℚ
  consecutiveFailures : Nat
  deriving DecidableEq, Repr

/-- Model of `PriceService._enable_degraded_mode`: latch on for 300
seconds from now. -/
def enableDegradedMode (st : PriceServiceState) (now : ℚ) : PriceServiceState :=
  { st with degradedMode := true, degradedModeUntil := now + 300 }

/-- Model of `PriceService._check_degraded_mode`: if the latch is on and
the expiry instant has passed, switch it off and reset the
consecutive-failure counter; the caller then reads the (updated)
`degraded_mode` flag. -/
def checkDegradedMode (st : PriceServiceState) (now : ℚ) : PriceServiceState :=
  if st.degradedMode ∧ st.degradedModeUntil < now then
    { st with degradedMode := false, consecutiveFailures := 0 }
  else st

/-- Symbols taking the stablecoin shortcut in `get_token_price_usdc`. -/
def isStablecoinSymbol (sym : String) : Bool :=
  pyUpper sym = "USDC" || pyUpper sym = "USDT" ||
  pyUpper sym = "DAI" || pyUpper sym = "BUSD"

/-- Outcome of the live resolution performed by `get_token_price_usdc`
after the cache, degraded-mode and stablecoin stages: the CoinGecko id
mapping plus price fetch either produces a price, finds no id, or
raises (network fault, parse error, ...). -/
inductive LiveOutcome where
  | fetched (price : ℚ)
  | noCoinId
  | exn
  deriving DecidableEq, Repr

/-- Model of `PriceService.get_token_price_usdc`.  Stages in source
order: memory-cache lookup; `_check_degraded_mode` (miss in degraded
mode returns 0.0 with no live call and no cache write); stablecoin
shortcut (1.0, cached); live resolution — a positive price is cached
and returned, a missing id or zero price caches 0.0, and the
surrounding `except` handler also caches 0.0 under the same key and
returns 0.0. -/
def getTokenPriceUsdc (st : PriceServiceState) (sym : String)
    (chain : Option String) (now : ℚ) (live : LiveOutcome) :
    ℚ × PriceServiceState :=
  let key := singlePriceCacheKey sym chain
  let got := priceCacheGet st.cache key now st.ttl
  match got.1 with
  | some p => (p, { st with cache := got.2 })
  | none =>
    let st1 : PriceServiceState := { st with cache := got.2 }
    let st2 := checkDegradedMode st1 now
    if st2.degradedMode then (0, st2)
    else if isStablecoinSymbol sym then
      (1, { st2 with cache := priceCacheSet st2.cache key 1 now })
    else
      match live with
      | .noCoinId => (0, { st2 with cache := priceCacheSet st2.cache key 0 now })
      | .fetched p =>
        if 0 < p then (p, { st2 with cache := priceCacheSet st2.cache key p now })
        else (0, { st2 with cache := priceCacheSet st2.cache key 0 now })
      | .exn => (0, { st2 with cache := priceCacheSet st2.cache key 0 now })

/-- Terminal outcome of one call to
`PriceService._fetch_batch_prices_from_coingecko` as far as the
error statistics and the degraded-mode latch are concerned:
`success` is any return through the happy path, `networkError` is the
`httpx.NetworkError` handler, `timeoutError` the `httpx.TimeoutException`
handler. -/
inductive BatchFetchEvent where
  | success
  | networkError
  | timeoutError
  deriving DecidableEq, Repr

/-- State update performed by `_fetch_batch_prices_from_coingecko` for
one such outcome.  The happy path never touches
`consecutive_failures` or the latch; the timeout handler only
increments the counter; the network-error handler increments it and
calls `_enable_degraded_mode` whenever the counter is at least 3. -/
def batchFetchStep (st : PriceServiceState) (now : ℚ) :
    BatchFetchEvent → PriceServiceState
  | .success => st
  | .timeoutError => { st with consecutiveFailures := st.consecutiveFailures + 1 }
  | .networkError =>
    let st1 : PriceServiceState :=
      { st with consecutiveFailures := st.consecutiveFailures + 1 }
    if 3 ≤ st1.consecutiveFailures then enableDegradedMode st1 now else st1

/-! ## Token discovery: data model, filtering, sorting, caching (claims C7, C8)

`TokenDiscoveryService` keeps `discovery_cache`, a dict from string key
to discovered-token lists; `discover_wallet_tokens` filters, dedups and
sorts its merged candidate list with `_filter_and_deduplicate_tokens`
and then fills in missing prices with `_enhance_token_prices`;
`add_manual_token` clears matching cache keys via
`_clear_address_cache`. -/

/-- The `DiscoveredToken` pydantic model (fields used by the core
pipeline). -/
structure DiscoveredToken where
  symbol : String
  name : String
  contractAddress : Option String
  balance : ℚ
  decimals : Nat
  isNative : Bool
  priceUsdc : Option ℚ
  valueUsdc : Option ℚ
  deriving DecidableEq, Repr

/-- Deduplication key from `_filter_and_deduplicate_tokens` step 1:
`"contract:" + contract.lower()` when a contract is present, else
`"native:" + symbol.upper()`. -/
def dedupKey (t : DiscoveredToken) : String :=
  match t.contractAddress with
  | some c => "contract:" ++ pyLower c
  | none => "native:" ++ pyUpper t.symbol

/-- One iteration of the dedup loop over `unique_tokens` (a Python
dict): an unseen key is appended; a seen key keeps its dict position
and is overwritten only when the new token's balance is strictly
higher. -/
def dedupeStep (acc : List (String × DiscoveredToken)) (t : DiscoveredToken) :
    List (String × DiscoveredToken) :=
  if acc.any (fun e => e.1 = dedupKey t) then
    acc.map (fun e =>
      if e.1 = dedupKey t then
        (if e.2.balance < t.balance then (dedupKey t, t) else e)
      else e)
  else acc ++ [(dedupKey t, t)]

/-- The dedup pass: fold the input through the dict and take
`unique_tokens.values()` in insertion order. -/
def dedupeTokens (tokens : List DiscoveredToken) : List DiscoveredToken :=
  (tokens.foldl dedupeStep []).map (fun e => e.2)

/-- Union of the per-chain `spam_tokens` sets (the source checks the
upper-cased symbol against every chain's set in turn, which is the
union). -/
def spamSymbols : List String :=
  ["SPAM", "SCAM", "FAKE", "TEST", "AIRDROP", "FREE", "CLAIM", "BONUS",
   "GIFT", "REWARD", "WIN", "LUCKY", "PRIZE", "SAFEMOON"]

/-- The `suspicious_patterns` list checked against the lower-cased
token name. -/
def suspiciousPatterns : List String :=
  ["visit", "claim", "bonus", "airdrop", "free", "gift", "reward",
   "win", "lucky", "prize", "spam", "scam", "fake", "test"]

/-- Model of `TokenDiscoveryService._is_spam_token`. -/
def isSpamToken (t : DiscoveredToken) : Bool :=
  spamSymbols.contains (pyUpper t.symbol) ||
  suspiciousPatterns.any (fun pat => pyContains (pyLower t.name) pat) ||
  20 < (pyUpper t.symbol).length ||
  pyStartsWith (pyUpper t.symbol) "TEST" ||
  pyEndsWith (pyUpper t.symbol) "TEST" ||
  pyUpper t.symbol = "" || pyUpper t.symbol = "UNKNOWN"

/-- Steps 2-4 of `_filter_and_deduplicate_tokens` for one token: drop
spam, drop zero balances unless requested, drop tokens whose known
value is below the threshold (unknown values pass). -/
def keepDiscoveredToken (t : DiscoveredToken) (minValueUsdc : ℚ)
    (includeZeroBalance : Bool) : Bool :=
  !(isSpamToken t) &&
  (includeZeroBalance || !(t.balance = 0)) &&
  (match t.valueUsdc with
   | some v => !(v < minValueUsdc)
   | none => true)

/-- Sort key of step 5: `t.value_usdc if t.value_usdc is not None else
0`. -/
def dtokSortKey (t : DiscoveredToken) : ℚ :=
  t.valueUsdc.getD 0

/-- Stable descending insertion: the new element goes after every
already-placed element whose key is at least its own.  `list.sort`
with `reverse=True` is a stable descending sort, and any stable
descending sort produces the same list, so folding the input through
this insertion reproduces it. -/
def insertValueDesc (t : DiscoveredToken) :
    List DiscoveredToken → List DiscoveredToken
  | [] => [t]
  | h :: rest =>
    if dtokSortKey t ≤ dtokSortKey h then h :: insertValueDesc t rest
    else t :: h :: rest

/-- Step 5 of `_filter_and_deduplicate_tokens`: sort by value
descending (missing values as 0), stably. -/
def sortByValueDesc (tokens : List DiscoveredToken) : List DiscoveredToken :=
  tokens.foldl (fun acc t => insertValueDesc t acc) []

/-- Model of `TokenDiscoveryService._filter_and_deduplicate_tokens`. -/
def filterAndDeduplicateTokens (tokens : List DiscoveredToken)
    (minValueUsdc : ℚ) (includeZeroBalance : Bool) : List DiscoveredToken :=
  if tokens = [] then []
  else
    sortByValueDesc ((dedupeTokens tokens).filter
      (fun t => keepDiscoveredToken t minValueUsdc includeZeroBalance))

/-- Model of the per-token body of
`TokenDiscoveryService._enhance_token_prices`: a token without a price
asks `data_aggregator.get_token_price(symbol, chain)` — abstracted as
`oracle` (returning `none` also covers the caught exception) — and on
success receives `price` and `value = balance * price`. -/
def enhanceOneTokenPrice (oracle : String → Option ℚ) (t : DiscoveredToken) :
    DiscoveredToken :=
  match t.priceUsdc with
  | none =>
    match oracle t.symbol with
    | some p => { t with priceUsdc := some p, valueUsdc := some (t.balance * p) }
    | none => t
  | some _ => t

/-- Model of `TokenDiscoveryService._enhance_token_prices`: the loop
appends each (possibly updated) token in input order. -/
def enhanceTokenPrices (tokens : List DiscoveredToken)
    (oracle : String → Option ℚ) : List DiscoveredToken :=
  tokens.map (enhanceOneTokenPrice oracle)

/-- Final list returned by `discover_wallet_tokens` for a merged
candidate list: filter/dedup/sort (step 4), then price enrichment
(step 5); caching and returning do not reorder. -/
def discoverWalletTokensResult (discovered : List DiscoveredToken)
    (oracle : String → Option ℚ) (minValueUsdc : ℚ)
    (includeZeroBalance : Bool) : List DiscoveredToken :=
  enhanceTokenPrices
    (filterAndDeduplicateTokens discovered minValueUsdc includeZeroBalance)
    oracle

/-- Spec-side predicate (from the claim's words, for comparison with
the source pipeline): the list is ordered by `value_usd` descending
with nil-valued entries last. -/
def specValueSortedDescNilLast : List DiscoveredToken → Bool
  | [] => true
  | [_] => true
  | a :: b :: rest =>
    (match a.valueUsdc, b.valueUsdc with
     | some va, some vb => decide (vb ≤ va)
     | some _, none => true
     | none, some _ => false
     | none, none => true) && specValueSortedDescNilLast (b :: rest)

/-- Adjacent-pairs check that a list is sorted by `dtokSortKey`
descending (the order actually established by step 5). -/
def keyDescSorted : List DiscoveredToken → Bool
  | [] => true
  | [_] => true
  | a :: b :: rest =>
    decide (dtokSortKey b ≤ dtokSortKey a) && keyDescSorted (b :: rest)

/-- Model of `TokenDiscoveryService._clear_address_cache`: delete every
cache entry whose key starts with `addr + ":" + chain + ":"`. -/
def clearAddressCache (cache : List (String × List DiscoveredToken))
    (addr chain : String) : List (String × List DiscoveredToken) :=
  cache.filter (fun e => !(pyStartsWith e.1 (addr ++ ":" ++ chain ++ ":")))

/-- Model of `TokenDiscoveryService.add_manual_token`.  Parameters
`enabled`, `balance` and `price` stand for
`settings.manual_token_addition_enabled`, the balance produced by the
aggregator/blockchain-service lookups, and the aggregator price.  The
cache is cleared only on the `balance > 0` success path; the disabled
path, the zero-balance path (and the exception path, which likewise
returns `None` before reaching `_clear_address_cache`) leave it
untouched.  `value_usdc` is `balance * price if price else None`:
Python's truthiness sends both a missing and a zero price to `None`. -/
def addManualToken (cache : List (String × List DiscoveredToken))
    (enabled : Bool) (addr chain : String) (tokenContract : Option String)
    (tokenSymbol : String) (balance : ℚ) (price : Option ℚ) :
    Option DiscoveredToken × List (String × List DiscoveredToken) :=
  if !enabled then (none, cache)
  else if 0 < balance then
    (some
      { symbol := pyUpper tokenSymbol
        name := ""
        contractAddress := tokenContract
        balance := balance
        decimals := 18
        isNative := tokenContract.isNone
        priceUsdc := price
        valueUsdc :=
          match price with
          | some p => if p = 0 then none else some (balance * p)
          | none => none },
     clearAddressCache cache addr chain)
  else (none, cache)

/-! ## Chain driver: EVM address validation and balance path (claim C9) -/

/-- ASCII hexadecimal digit test. -/
def isHexDigitChar (c : Char) : Bool :=
  ('0' ≤ c && c ≤ '9') || ('a' ≤ c && c ≤ 'f') || ('A' ≤ c && c ≤ 'F')

/-- Hex digits with single underscores allowed strictly between digits,
as accepted by Python's `int(s, 16)` after the first digit. -/
def pyIntHexTail : List Char → Bool
  | [] => true
  | c :: rest =>
    if c = '_' then
      match rest with
      | [] => false
      | d :: rest2 => isHexDigitChar d && pyIntHexTail rest2
    else isHexDigitChar c && pyIntHexTail rest

/-- At least one hex digit, then underscore-separated digits. -/
def pyIntHexDigits : List Char → Bool
  | [] => false
  | c :: rest => isHexDigitChar c && pyIntHexTail rest

/-- Body accepted by `int(s, 16)` after an optional sign: an optional
`0x`/`0X` (an underscore may follow the hex marker), then digits. -/
def pyIntHexAfterSign (l : List Char) : Bool :=
  match l with
  | '0' :: x :: rest =>
    if x = 'x' || x = 'X' then
      match rest with
      | '_' :: rest2 => pyIntHexDigits rest2
      | _ => pyIntHexDigits rest
    else pyIntHexDigits ('0' :: x :: rest)
  | _ => pyIntHexDigits l

/-- Model of "`int(s, 16)` does not raise `ValueError`": surrounding
whitespace is stripped, then an optional sign, hex marker and digit
body. -/
def pyIntHexOk (s : String) : Bool :=
  match (pyStrip s).data with
  | [] => false
  | c :: rest =>
    if c = '+' || c = '-' then pyIntHexAfterSign rest
    else pyIntHexAfterSign (c :: rest)

/-- Model of `BlockchainService._is_valid_eth_address`: strip, require
the `0x` marker and a total length of 42, then require the remainder to
parse as base-16. -/
def isValidEthAddress (address : String) : Bool :=
  if !(pyStartsWith (pyStrip address) "0x") || (pyStrip address).length ≠ 42
  then false
  else pyIntHexOk ⟨(pyStrip address).data.drop 2⟩

/-- Network side effects of the EVM balance path that matter to claim
C9: the connection/health round-trip of `ensure_chain_initialized` and
the balance RPC itself. -/
inductive NetEvent where
  | rpcProbe
  | rpcBalanceCall
  deriving DecidableEq, Repr

/-- Network events of `ensure_chain_initialized` for a supported EVM
chain: when a cached connection exists, `_is_connection_healthy` reads
`w3.eth.block_number` over the network; otherwise
`_initialize_single_chain` connects and fetches the latest block.
Either way at least one network round-trip happens. -/
def ensureChainInitializedEvents : List NetEvent :=
  [.rpcProbe]

/-- Model of `BlockchainService._get_native_balance` (run only after
initialization): an invalid address logs and returns `0.0` with no RPC;
a valid one performs the balance call. -/
def getNativeBalance (address : String) (chainBalance : ℚ) :
    ℚ × List NetEvent :=
  if !(isValidEthAddress address) then (0, [])
  else (chainBalance, [.rpcBalanceCall])

/-- Model of `BlockchainService._get_erc20_balance`: wallet and
contract addresses are validated (after initialization), then the
contract calls run. -/
def getErc20Balance (address contractAddress : String) (chainBalance : ℚ) :
    ℚ × List NetEvent :=
  if !(isValidEthAddress address) then (0, [])
  else if !(isValidEthAddress contractAddress) then (0, [])
  else (chainBalance, [.rpcBalanceCall])

/-- Model of `BlockchainService._get_evm_balance`: first
`ensure_chain_initialized` (network I/O, result `initOk`), only then
dispatch to the balance helpers which perform address validation.  The
returned value is a plain float; no error value exists on this path. -/
def getEvmBalance (initOk : Bool) (address : String)
    (tokenContractAddress : Option String) (chainBalance : ℚ) :
    ℚ × List NetEvent :=
  if !initOk then (0, ensureChainInitializedEvents)
  else
    match tokenContractAddress with
    | none =>
      let r := getNativeBalance address chainBalance
      (r.1, ensureChainInitializedEvents ++ r.2)
    | some c =>
      let r := getErc20Balance address c chainBalance
      (r.1, ensureChainInitializedEvents ++ r.2)

/-! ## Database asset and token services (claims C1, C4)

Tables from `app/core/database.py`: `tokens` with
`UNIQUE(symbol, blockchain_id, contract_address)`, `wallets` with
`UNIQUE(address, blockchain_id)`, `assets` with
`UNIQUE(wallet_id, token_id)` (over all rows, active or not).  SQLite
treats NULL as distinct in UNIQUE constraints, so token rows with a
NULL contract address never conflict; the asset and wallet key columns
are NOT NULL, so their constraints always apply. -/

/-- A `tokens` table row (fields used by the services). -/
structure TokenRow where
  id : Nat
  symbol : String
  blockchainId : Nat
  contractAddress : Option String
  isActive : Bool
  deriving DecidableEq, Repr

/-- A `wallets` table row (fields used by the services). -/
structure WalletRow where
  id : Nat
  address : String
  blockchainId : Nat
  deriving DecidableEq, Repr

/-- An `assets` table row (fields used by the services). -/
structure AssetRow where
  id : String
  walletId : Nat
  tokenId : Nat
  tag : Option String
  isActive : Bool
  deriving DecidableEq, Repr

/-- The `SELECT id FROM tokens WHERE symbol = ? AND blockchain_id = ?
AND contract_address = ?/IS NULL AND is_active = 1` lookup used by
`_get_or_create_token` before and after its insert. -/
def tokensFindActive (tokens : List TokenRow) (symbol : String)
    (blockchainId : Nat) (contractAddress : Option String) : Option Nat :=
  (tokens.find? (fun t =>
    t.symbol = symbol && t.blockchainId = blockchainId &&
    t.contractAddress = contractAddress && t.isActive)).map (·.id)

/-- Whether `INSERT INTO tokens` hits the
`UNIQUE(symbol, blockchain_id, contract_address)` constraint: only rows
with equal non-NULL contract addresses conflict (SQLite treats NULLs as
distinct). -/
def tokensInsertConflicts (tokens : List TokenRow) (symbol : String)
    (blockchainId : Nat) (contractAddress : Option String) : Bool :=
  match contractAddress with
  | none => false
  | some c =>
    tokens.any (fun t =>
      t.symbol = symbol && t.blockchainId = blockchainId &&
      t.contractAddress = some c)

/-- Model of `DatabaseAssetService._get_or_create_token`, with the
concurrency window made explicit: `lookupDb` is the table contents seen
by the initial active-row lookup and `insertDb` the contents at insert
time (they coincide in a race-free run).  An active match is returned;
otherwise the insert either succeeds (the new row gets `is_active = 1`,
`is_predefined = 0` and rowid `nextId`) or raises the UNIQUE conflict,
whose handler re-runs the *active*-row lookup and raises `ValueError`
when it finds nothing — an inactive conflicting row is never
reactivated. -/
def getOrCreateTokenRace (lookupDb insertDb : List TokenRow) (nextId : Nat)
    (symbol : String) (blockchainId : Nat) (contractAddress : Option String) :
    Except String (List TokenRow × Nat) :=
  match tokensFindActive lookupDb symbol blockchainId contractAddress with
  | some tid => .ok (insertDb, tid)
  | none =>
    if tokensInsertConflicts insertDb symbol blockchainId contractAddress then
      match tokensFindActive insertDb symbol blockchainId contractAddress with
      | some tid => .ok (insertDb, tid)
      | none => .error "token creation failed: UNIQUE conflict with no active row"
    else
      .ok (insertDb ++
        [{ id := nextId, symbol := symbol, blockchainId := blockchainId,
           contractAddress := contractAddress, isActive := true }], nextId)

/-- Race-free (sequential) `_get_or_create_token`. -/
def getOrCreateToken (tokens : List TokenRow) (nextId : Nat) (symbol : String)
    (blockchainId : Nat) (contractAddress : Option String) :
    Except String (List TokenRow × Nat) :=
  getOrCreateTokenRace tokens tokens nextId symbol blockchainId contractAddress

/-- Model of `DatabaseAssetService._get_or_create_wallet` in a
sequential run (the wallet-name update is not modelled — the claims
pass no wallet name; the UNIQUE-race handler is unreachable
sequentially).  Returns the table, the wallet id and the next fresh
rowid. -/
def getOrCreateWallet (wallets : List WalletRow) (nextId : Nat)
    (address : String) (blockchainId : Nat) :
    List WalletRow × Nat × Nat :=
  match (wallets.find? (fun w =>
      w.address = address && w.blockchainId = blockchainId)).map (·.id) with
  | some wid => (wallets, wid, nextId)
  | none =>
    (wallets ++ [{ id := nextId, address := address, blockchainId := blockchainId }],
     nextId, nextId + 1)

/-- State touched by `DatabaseAssetService`: the four tables, the
balance-history rows (asset id, timestamp, balance) and fresh-rowid
counters. -/
structure AssetsDb where
  blockchains : List (Nat × String)
  wallets : List WalletRow
  tokens : List TokenRow
  assets : List AssetRow
  balanceHistory : List (String × Int × ℚ)
  nextWalletId : Nat
  nextTokenId : Nat
  deriving DecidableEq, Repr

/-- The `SELECT id FROM blockchains WHERE name = ? AND is_active = 1`
lookup (all modelled chains are active). -/
def getBlockchainId (db : AssetsDb) (chainName : String) : Option Nat :=
  (db.blockchains.find? (fun b => b.2 = chainName)).map (·.1)

/-- Bool view of an `Except` result: whether the call raised. -/
def exceptIsError {α : Type} (r : Except String α) : Bool :=
  match r with
  | .error _ => true
  | .ok _ => false

/-- Model of `DatabaseAssetService.add_asset`.  `newAssetId` stands for
the generated `uuid4`.  Steps in source order: resolve the chain,
get-or-create the wallet and the token, return any existing *active*
asset for the pair, else `INSERT INTO assets`.  The insert has no
conflict handler, so a row for the same `(wallet_id, token_id)` —
active or soft-deleted — surfaces the UNIQUE constraint error. -/
def addAsset (db : AssetsDb) (newAssetId : String)
    (address chainName tokenSymbol : String)
    (tokenContractAddress : Option String) (tag : Option String) :
    Except String (AssetsDb × String) :=
  match getBlockchainId db chainName with
  | none => .error "unsupported blockchain"
  | some blockchainId =>
    let wr := getOrCreateWallet db.wallets db.nextWalletId address blockchainId
    match getOrCreateToken db.tokens db.nextTokenId tokenSymbol blockchainId
        tokenContractAddress with
    | .error e => .error e
    | .ok tr =>
      let db1 : AssetsDb :=
        { db with
          wallets := wr.1
          nextWalletId := wr.2.2
          tokens := tr.1
          nextTokenId :=
            (if tr.2 = db.nextTokenId then db.nextTokenId + 1
             else db.nextTokenId) }
      match db.assets.find? (fun a =>
          a.walletId = wr.2.1 && a.tokenId = tr.2 && a.isActive) with
      | some a => .ok (db1, a.id)
      | none =>
        if db.assets.any (fun a => a.walletId = wr.2.1 && a.tokenId = tr.2) then
          .error "UNIQUE constraint failed: assets.wallet_id, assets.token_id"
        else
          .ok ({ db1 with assets := db.assets ++
            [{ id := newAssetId, walletId := wr.2.1, tokenId := tr.2,
               tag := tag, isActive := true }] }, newAssetId)

/-- Model of `DatabaseAssetService.delete_asset`: soft-delete by
`UPDATE assets SET is_active = 0 WHERE id = ? AND is_active = 1`; the
boolean reports `rowcount > 0`.  No other table is touched — in
particular `balance_history` rows survive unchanged. -/
def deleteAsset (db : AssetsDb) (assetId : String) : AssetsDb × Bool :=
  ({ db with assets := db.assets.map (fun a =>
      if a.id = assetId && a.isActive then { a with isActive := false }
      else a) },
   db.assets.any (fun a => a.id = assetId && a.isActive))

/-! ## Token library custom tokens (claim C4) -/

/-- The `TokenInfo` records held by `TokenLibraryService` (predefined
catalog plus the custom-token JSON file). -/
structure TokenInfo where
  symbol : String
  name : String
  chainName : String
  contractAddress : Option String
  isPredefined : Bool
  deriving DecidableEq, Repr

/-- Model of `TokenLibraryService.find_token`: first token matching the
case-insensitive symbol and chain among predefined-then-custom. -/
def findToken (allTokens : List TokenInfo) (symbol chainName : String) :
    Option TokenInfo :=
  allTokens.find? (fun t =>
    pyUpper t.symbol = pyUpper symbol &&
    pyLower t.chainName = pyLower chainName)

/-- Model of `TokenLibraryService.add_custom_token`: any existing match
— active contract or not, predefined or custom — makes the call raise
`ValueError`; otherwise the token is appended to the custom file. -/
def addCustomToken (predefined custom : List TokenInfo)
    (symbol name chainName : String) (contractAddress : Option String) :
    Except String (List TokenInfo) :=
  match findToken (predefined ++ custom) symbol chainName with
  | some _ => .error "token already exists on this chain"
  | none =>
    .ok (custom ++
      [{ symbol := symbol
         name := name
         chainName := chainName
         contractAddress := contractAddress
         isPredefined := false }])

end CryptoAsset

namespace CryptoAsset

/-! ## Theorems -/

/-- C2 counterexample: the portfolio/asset snapshot collector stores the
raw epoch second.  At `t = 1800` the stored timestamp is `1800`, which
differs from `t - (t mod 3600) = 0` and is not divisible by 3600, so not
every stored history timestamp is hour-aligned. -/
theorem snapshot_ts_not_aligned_at_1800 :
    snapshotStoredTs 1800 ≠ 1800 - 1800 % 3600 ∧
    ¬ ((3600 : Int) ∣ snapshotStoredTs 1800) := by
  constructor
  · decide
  · decide

/-- C2 (amended): `save_price_history` and `save_balance_history` store
`t - ((t + off) mod 3600)` where `off` is the local UTC offset, and that
value is divisible by 3600 exactly when `off` is (in particular always
under UTC, `off = 0`); the enhanced snapshot collector stores the raw
timestamp unaligned. -/
theorem history_ts_alignment (off t : Int) :
    priceHistoryStoredTs off t = t - (t + off) % 3600 ∧
    balanceHistoryStoredTs off t = t - (t + off) % 3600 ∧
    ((3600 : Int) ∣ priceHistoryStoredTs off t ↔ (3600 : Int) ∣ off) ∧
    snapshotStoredTs t = t := by
  refine ⟨rfl, rfl, ?_, rfl⟩
  simp only [priceHistoryStoredTs, alignToHour, Int.dvd_iff_emod_eq_zero]
  omega

/-- C3: every stored snapshot row with nonnegative quantity and price
has `value_usd = quantity * price_usd` up to the spec's tolerance
(`1e-6 * max 1 value`); in fact the equality is exact, because the row
stores either the literal product (both factors positive) or `0.0`
(some factor is zero). -/
theorem snapshot_value_eq_quantity_mul_price (q p : ℚ)
    (hq : 0 ≤ q) (hp : 0 ≤ p) :
    |(saveEnhancedSnapshotRow q p).valueUsdc - q * p| ≤
      (1 / 1000000) * max 1 (saveEnhancedSnapshotRow q p).valueUsdc := by
  have hval : (saveEnhancedSnapshotRow q p).valueUsdc = q * p := by
    simp only [saveEnhancedSnapshotRow, computeValueUsdc]
    by_cases h : 0 < q ∧ 0 < p
    · simp [h]
    · have : q = 0 ∨ p = 0 := by
        rcases lt_or_eq_of_le hq with hq' | hq'
        · rcases lt_or_eq_of_le hp with hp' | hp'
          · exact absurd ⟨hq', hp'⟩ h
          · exact Or.inr hp'.symm
        · exact Or.inl hq'.symm
      rcases this with h0 | h0 <;> simp [h, h0]
  rw [hval, sub_self, abs_zero]
  have h1 : (1 : ℚ) ≤ max 1 (q * p) := le_max_left _ _
  positivity

/-- C3 witness at `q = 2`, `p = 3`. -/
theorem snapshot_value_eq_quantity_mul_price_witness :
    (0 : ℚ) ≤ 2 ∧ (0 : ℚ) ≤ 3 ∧
      |(saveEnhancedSnapshotRow 2 3).valueUsdc - 2 * 3| ≤
        (1 / 1000000) * max 1 (saveEnhancedSnapshotRow 2 3).valueUsdc :=
  ⟨by norm_num, by norm_num,
    snapshot_value_eq_quantity_mul_price 2 3 (by norm_num) (by norm_num)⟩

/-- Helper: after a dict assignment that overwrites an existing key, the
keyed lookup finds the new entry. -/
theorem find?_replace_of_any (cache : List PriceCacheEntry) (key : String)
    (p now : ℚ) (h : cache.any (fun e => e.1 = key) = true) :
    (cache.map (fun e => if e.1 = key then (key, p, now) else e)).find?
      (fun e => e.1 = key) = some (key, p, now) := by
  induction cache with
  | nil => simp at h
  | cons e t ih =>
    by_cases he : e.1 = key
    · simp [he]
    · have h' : t.any (fun e => e.1 = key) = true := by
        simp only [List.any_cons, he] at h
        simpa using h

      simp [he, ih h']

/-- Helper: `PriceCache.set` leaves the dict with the new entry under
the written key. -/
theorem find?_priceCacheSet (cache : List PriceCacheEntry) (key : String)
    (p now : ℚ) :
    (priceCacheSet cache key p now).find? (fun e => e.1 = key) =
      some (key, p, now) := by
  unfold priceCacheSet
  by_cases h : cache.any (fun e => e.1 = key) = true
  · rw [if_pos h]
    exact find?_replace_of_any cache key p now h
  · rw [if_neg h]
    have hnone : cache.find? (fun e => e.1 = key) = none := by
      rw [List.find?_eq_none]
      intro x hx
      intro hpx
      exact h (List.any_eq_true.mpr ⟨x, hx, hpx⟩)
    rw [List.find?_append, hnone]
    simp

/-- Helper: a value written by `PriceCache.set` is read back by
`PriceCache.get` strictly within the TTL window. -/
theorem priceCacheGet_set_fresh (cache : List PriceCacheEntry)
    (key : String) (p now t' ttl : ℚ) (h : t' - now < ttl) :
    (priceCacheGet (priceCacheSet cache key p now) key t' ttl).1 = some p := by
  unfold priceCacheGet
  rw [find?_priceCacheSet]
  simp [h]

/-- Helper: cancellation of a common suffix of two strings. -/
theorem string_append_right_cancel (a b s : String) (h : a ++ s = b ++ s) :
    a = b := by
  have h2 : a.data ++ s.data = b.data ++ s.data := by
    have h3 := congrArg String.data h
    simpa [String.data_append] using h3
  exact String.ext (List.append_cancel_right h2)

/-- C5 counterexample: `get_multiple_prices_batch` keys the shared
memory cache by the lower-cased symbol while `get_token_price_usdc`
keys it by the upper-cased symbol, so for the symbol "ETH" the two
paths use different keys and a price cached by the batch path is not
a cache hit for the single-price path even immediately afterwards. -/
theorem batch_and_single_cache_keys_disagree :
    singlePriceCacheKey "ETH" none ≠ batchPriceCacheKey "ETH" none ∧
    (priceCacheGet (priceCacheSet [] (batchPriceCacheKey "ETH" none) 100 0)
        (singlePriceCacheKey "ETH" none) 1 300).1 = none := by
  constructor
  · decide
  · decide

/-- C5 (amended): each price path is self-consistent — a price written
under a key is returned as a fresh hit for the same key strictly within
the TTL — but the single path keys by `upper(symbol)` and the batch path
by `lower(strip(symbol))`, so (for an already-stripped symbol and no
chain) the two paths share cache entries exactly when upper-casing and
lower-casing the symbol coincide, i.e. when the symbol has no
letters. -/
theorem price_cache_key_paths (cache : List PriceCacheEntry)
    (k sym : String) (p now t' ttl : ℚ) :
    (t' - now < ttl →
      (priceCacheGet (priceCacheSet cache k p now) k t' ttl).1 = some p) ∧
    (pyStrip sym = sym →
      (singlePriceCacheKey sym none = batchPriceCacheKey sym none ↔
        pyUpper sym = pyLower sym)) := by
  constructor
  · intro h
    exact priceCacheGet_set_fresh cache k p now t' ttl h
  · intro hstrip
    unfold singlePriceCacheKey batchPriceCacheKey
    rw [hstrip]
    have hc : chainOrDefault (Option.map pyStrip none) = chainOrDefault none :=
      rfl
    rw [hc]
    constructor
    · intro h
      have h1 := string_append_right_cancel _ _ _ h
      exact string_append_right_cancel _ _ _ h1
    · intro h
      rw [h]

/-- C5 witness: the same-key round trip at `k = "K"`, `p = 7`,
written at time 0 and read at time 0 with TTL 300, and the key-equality
criterion at the letter-free symbol "42" (where the two paths agree)
via the amended theorem. -/
theorem price_cache_key_paths_witness :
    ((0 : ℚ) - 0 < 300 ∧
      (priceCacheGet (priceCacheSet [] "K" 7 0) "K" 0 300).1 = some 7) ∧
    (pyStrip "42" = "42" ∧
      (singlePriceCacheKey "42" none = batchPriceCacheKey "42" none ↔
        pyUpper "42" = pyLower "42")) :=
  ⟨⟨by norm_num,
      (price_cache_key_paths [] "K" "42" 7 0 0 300).1 (by norm_num)⟩,
    ⟨by decide,
      (price_cache_key_paths [] "K" "42" 7 0 0 300).2 (by decide)⟩⟩

/-- C6 counterexample: three consecutive timeout failures leave the
consecutive-failure counter at 3 with degraded mode still off (only the
network-error handler can engage it), and once engaged by a fourth,
network-error failure, a subsequent successful batch fetch leaves the
state — latch and counter included — completely unchanged, so success
neither disengages degraded mode nor resets the counter. -/
theorem degraded_mode_three_timeouts_then_success :
    (batchFetchStep (batchFetchStep (batchFetchStep
        ⟨[], 300, false, 0, 0⟩ 0 .timeoutError) 0 .timeoutError)
        0 .timeoutError).consecutiveFailures = 3 ∧
    (batchFetchStep (batchFetchStep (batchFetchStep
        ⟨[], 300, false, 0, 0⟩ 0 .timeoutError) 0 .timeoutError)
        0 .timeoutError).degradedMode = false ∧
    (batchFetchStep (batchFetchStep (batchFetchStep (batchFetchStep
        ⟨[], 300, false, 0, 0⟩ 0 .timeoutError) 0 .timeoutError)
        0 .timeoutError) 0 .networkError).degradedMode = true ∧
    batchFetchStep (batchFetchStep (batchFetchStep (batchFetchStep
        (batchFetchStep ⟨[], 300, false, 0, 0⟩ 0 .timeoutError)
        0 .timeoutError) 0 .timeoutError) 0 .networkError)
        100 .success =
      batchFetchStep (batchFetchStep (batchFetchStep (batchFetchStep
        ⟨[], 300, false, 0, 0⟩ 0 .timeoutError) 0 .timeoutError)
        0 .timeoutError) 0 .networkError :=
  ⟨by decide, by decide, by decide, rfl⟩

/-- C6 (amended): the degraded-mode latch engages exactly on a
network-error outcome of the batched CoinGecko fetch that brings the
consecutive-failure counter to 3 or more (timeouts increment the
counter without engaging it; success changes nothing, so neither the
counter nor the latch resets on success); while engaged and not yet
expired, a single-price query that misses the memory cache returns 0
independently of what the live path would do (no live call); the latch
disengages, and the counter resets, at the first degraded-mode check
strictly after the 5-minute expiry instant. -/
theorem degraded_mode_behaviour (st : PriceServiceState) (sym : String)
    (chain : Option String) (now : ℚ) :
    ((batchFetchStep st now .networkError).degradedMode =
      (st.degradedMode || decide (3 ≤ st.consecutiveFailures + 1))) ∧
    ((batchFetchStep st now .networkError).consecutiveFailures =
      st.consecutiveFailures + 1) ∧
    ((batchFetchStep st now .timeoutError).degradedMode = st.degradedMode) ∧
    ((batchFetchStep st now .timeoutError).consecutiveFailures =
      st.consecutiveFailures + 1) ∧
    (batchFetchStep st now .success = st) ∧
    (st.degradedMode = true → ¬ st.degradedModeUntil < now →
      (priceCacheGet st.cache (singlePriceCacheKey sym chain) now st.ttl).1
          = none →
      ∀ live live' : LiveOutcome,
        getTokenPriceUsdc st sym chain now live =
          getTokenPriceUsdc st sym chain now live' ∧
        (getTokenPriceUsdc st sym chain now live).1 = 0) ∧
    (st.degradedMode = true → st.degradedModeUntil < now →
      (checkDegradedMode st now).degradedMode = false ∧
      (checkDegradedMode st now).consecutiveFailures = 0) := by
  refine ⟨?_, ?_, ?_, ?_, rfl, ?_, ?_⟩
  · by_cases h : 3 ≤ st.consecutiveFailures + 1 <;>
      simp [batchFetchStep, enableDegradedMode, h]
  · by_cases h : 3 ≤ st.consecutiveFailures + 1 <;>
      simp [batchFetchStep, enableDegradedMode, h]
  · simp [batchFetchStep]
  · simp [batchFetchStep]
  · intro hdeg hnotafter hmiss live live'
    simp only [getTokenPriceUsdc, hmiss, checkDegradedMode, hdeg]
    simp [hnotafter]
  · intro hdeg hafter
    simp [checkDegradedMode, hdeg, hafter]

/-- C6 witness: a degraded state engaged until time 300 with the cache
empty; at time 10 a query for "PEPE" misses the cache and returns 0 no
matter what the live path would have produced, and at time 400 the
degraded-mode check disengages the latch and resets the counter.  The
step equations are instantiated at the same state. -/
theorem degraded_mode_behaviour_witness :
    ((batchFetchStep ⟨[], 300, true, 300, 3⟩ 10 .networkError).degradedMode =
      ((⟨[], 300, true, 300, 3⟩ : PriceServiceState).degradedMode ||
        decide (3 ≤ (⟨[], 300, true, 300, 3⟩ :
          PriceServiceState).consecutiveFailures + 1))) ∧
    (getTokenPriceUsdc ⟨[], 300, true, 300, 3⟩ "PEPE" none 10 .exn =
        getTokenPriceUsdc ⟨[], 300, true, 300, 3⟩ "PEPE" none 10
          (.fetched 5) ∧
      (getTokenPriceUsdc ⟨[], 300, true, 300, 3⟩ "PEPE" none 10 .exn).1 = 0) ∧
    ((checkDegradedMode ⟨[], 300, true, 300, 3⟩ 400).degradedMode = false ∧
      (checkDegradedMode ⟨[], 300, true, 300, 3⟩ 400).consecutiveFailures
        = 0) :=
  ⟨(degraded_mode_behaviour ⟨[], 300, true, 300, 3⟩ "PEPE" none 10).1,
    (degraded_mode_behaviour ⟨[], 300, true, 300, 3⟩ "PEPE" none
        10).2.2.2.2.2.1 rfl (by norm_num) (by decide) .exn (.fetched 5),
    (degraded_mode_behaviour ⟨[], 300, true, 300, 3⟩ "PEPE" none
        400).2.2.2.2.2.2 rfl (by norm_num)⟩

/-- C10: when the live resolution of `get_token_price_usdc` raises after
a memory-cache miss (outside degraded mode, non-stablecoin symbol), the
call returns 0.0 and caches 0.0 under the query's key, and every
identical query strictly within the next `price_cache_ttl` seconds
returns 0.0 regardless of what its own live path would produce — i.e.
it is answered from the cache with no network attempt. -/
theorem exception_caches_zero (st : PriceServiceState) (sym : String)
    (chain : Option String) (now : ℚ)
    (hmiss : (priceCacheGet st.cache (singlePriceCacheKey sym chain) now
        st.ttl).1 = none)
    (hdeg : st.degradedMode = false)
    (hstable : isStablecoinSymbol sym = false) :
    (getTokenPriceUsdc st sym chain now .exn).1 = 0 ∧
    ∀ (live' : LiveOutcome) (t' : ℚ), t' - now < st.ttl →
      (getTokenPriceUsdc ((getTokenPriceUsdc st sym chain now .exn).2)
        sym chain t' live').1 = 0 := by
  have hst2 : getTokenPriceUsdc st sym chain now .exn =
      (0, { st with cache := (priceCacheSet
        ((priceCacheGet st.cache (singlePriceCacheKey sym chain) now
          st.ttl).2) (singlePriceCacheKey sym chain) 0 now) }) := by
    simp only [getTokenPriceUsdc, hmiss, checkDegradedMode, hdeg]
    simp [hstable]
  constructor
  · rw [hst2]
  · intro live' t' h
    rw [hst2]
    have hget := priceCacheGet_set_fresh
      ((priceCacheGet st.cache (singlePriceCacheKey sym chain) now st.ttl).2)
      (singlePriceCacheKey sym chain) 0 now t' st.ttl h
    simp only [getTokenPriceUsdc]
    rw [hget]

/-- C10 witness: empty cache with TTL 300, symbol "PEPE", no chain; an
exception at time 0 yields 0.0, and a repeat query at time 100 whose
live path would have returned 5 still yields 0.0 from the cache. -/
theorem exception_caches_zero_witness :
    ((priceCacheGet (⟨[], 300, false, 0, 0⟩ : PriceServiceState).cache
        (singlePriceCacheKey "PEPE" none) 0
        (⟨[], 300, false, 0, 0⟩ : PriceServiceState).ttl).1 = none) ∧
    (getTokenPriceUsdc ⟨[], 300, false, 0, 0⟩ "PEPE" none 0 .exn).1 = 0 ∧
    (getTokenPriceUsdc
        ((getTokenPriceUsdc ⟨[], 300, false, 0, 0⟩ "PEPE" none 0 .exn).2)
        "PEPE" none 100 (.fetched 5)).1 = 0 :=
  ⟨by decide,
    (exception_caches_zero ⟨[], 300, false, 0, 0⟩ "PEPE" none 0 (by decide)
      rfl (by decide)).1,
    (exception_caches_zero ⟨[], 300, false, 0, 0⟩ "PEPE" none 0 (by decide)
      rfl (by decide)).2 (.fetched 5) 100 (by norm_num)⟩

/-- Helper: inserting below a dominating head preserves descending
sortedness. -/
theorem keyDescSorted_cons_insert (t h : DiscoveredToken)
    (l : List DiscoveredToken) (hs : keyDescSorted (h :: l) = true)
    (hle : dtokSortKey t ≤ dtokSortKey h) :
    keyDescSorted (h :: insertValueDesc t l) = true := by
  induction l generalizing h with
  | nil =>
    simp [insertValueDesc, keyDescSorted, hle]
  | cons b rest ih =>
    simp only [keyDescSorted, Bool.and_eq_true, decide_eq_true_eq] at hs
    by_cases hc : dtokSortKey t ≤ dtokSortKey b
    · have h1 := ih b hs.2 hc
      simp only [insertValueDesc, if_pos hc]
      simp only [keyDescSorted, Bool.and_eq_true, decide_eq_true_eq]
      refine ⟨hs.1, ?_⟩
      simpa only [keyDescSorted, Bool.and_eq_true, decide_eq_true_eq] using h1
    · simp only [insertValueDesc, if_neg hc]
      simp only [keyDescSorted, Bool.and_eq_true, decide_eq_true_eq]
      exact ⟨hle, le_of_lt (not_le.mp hc), hs.2⟩

/-- Helper: insertion preserves descending sortedness. -/
theorem keyDescSorted_insert (t : DiscoveredToken)
    (l : List DiscoveredToken) (hs : keyDescSorted l = true) :
    keyDescSorted (insertValueDesc t l) = true := by
  cases l with
  | nil => simp [insertValueDesc, keyDescSorted]
  | cons h rest =>
    by_cases hc : dtokSortKey t ≤ dtokSortKey h
    · have h1 := keyDescSorted_cons_insert t h rest hs hc
      simpa only [insertValueDesc, if_pos hc] using h1
    · simp only [insertValueDesc, if_neg hc]
      simp only [keyDescSorted, Bool.and_eq_true, decide_eq_true_eq]
      exact ⟨le_of_lt (not_le.mp hc), hs⟩

/-- Helper: folding repeated insertions keeps the accumulator sorted. -/
theorem keyDescSorted_foldl (l acc : List DiscoveredToken)
    (hs : keyDescSorted acc = true) :
    keyDescSorted (l.foldl (fun a t => insertValueDesc t a) acc) = true := by
  induction l generalizing acc with
  | nil => simpa using hs
  | cons t rest ih => exact ih _ (keyDescSorted_insert t acc hs)

/-- Helper: price enrichment never changes a token's symbol or
balance. -/
theorem enhanceOneTokenPrice_preserves (oracle : String → Option ℚ)
    (t : DiscoveredToken) :
    (enhanceOneTokenPrice oracle t).symbol = t.symbol ∧
    (enhanceOneTokenPrice oracle t).balance = t.balance := by
  unfold enhanceOneTokenPrice
  cases hp : t.priceUsdc with
  | none => cases ho : oracle t.symbol <;> simp
  | some p => simp

/-- C8 counterexample: the final list of `discover_wallet_tokens` is
not sorted by `value_usd` descending with nil last.  First input: a
nil-valued token and a zero-valued token tie on the sort key 0, and the
stable sort leaves the nil-valued one first, not last.  Second input: a
token without a price sorts at the tail (key 0), then `_enhance_token_prices`
assigns it value 3 * 2 = 6 after sorting, leaving it behind a token of
value 1. -/
theorem discovery_result_not_spec_sorted :
    specValueSortedDescNilLast (discoverWalletTokensResult
      [⟨"BBB", "bbb", some "0xb", 1, 18, false, none, none⟩,
       ⟨"AAA", "aaa", some "0xa", 2, 18, false, some 0, some 0⟩]
      (fun _ => none) 0 false) = false ∧
    specValueSortedDescNilLast (discoverWalletTokensResult
      [⟨"AAA", "aaa", some "0xa", 1, 18, false, some 1, some 1⟩,
       ⟨"BBB", "bbb", some "0xb", 3, 18, false, none, none⟩]
      (fun s => if s = "BBB" then some 2 else none) 0 false) = false := by
  constructor
  · decide
  · norm_num [discoverWalletTokensResult, filterAndDeduplicateTokens,
      dedupeTokens, dedupeStep, dedupKey, keepDiscoveredToken, isSpamToken,
      sortByValueDesc, insertValueDesc, dtokSortKey, enhanceTokenPrices,
      enhanceOneTokenPrice, specValueSortedDescNilLast, spamSymbols,
      suspiciousPatterns, pyContains, pyUpper, pyLower, containsSub,
      pyUpperChar, pyLowerChar, pyStartsWith, pyStartsWithL, pyEndsWith]

/-- C8 (amended): `_filter_and_deduplicate_tokens` returns a list
sorted descending by the key `value_usd or 0` — nil-valued entries tie
with zero-valued entries instead of sorting strictly last — and
`_enhance_token_prices` afterwards maps over that list preserving order
(symbols and balances position-wise), so the sort happens before
enrichment and an enriched token keeps its pre-enrichment position. -/
theorem discovery_sorted_before_enrichment (tokens l : List DiscoveredToken)
    (minValueUsdc : ℚ) (includeZeroBalance : Bool)
    (oracle : String → Option ℚ) :
    keyDescSorted (filterAndDeduplicateTokens tokens minValueUsdc
      includeZeroBalance) = true ∧
    (enhanceTokenPrices l oracle).map (fun t => (t.symbol, t.balance)) =
      l.map (fun t => (t.symbol, t.balance)) := by
  constructor
  · unfold filterAndDeduplicateTokens
    by_cases h : tokens = []
    · simp [h, keyDescSorted]
    · rw [if_neg h]
      exact keyDescSorted_foldl _ [] rfl
  · unfold enhanceTokenPrices
    induction l with
    | nil => rfl
    | cons t rest ih =>
      simp only [List.map_cons, ih, List.cons.injEq, and_true]
      have h1 := enhanceOneTokenPrice_preserves oracle t
      rw [h1.1, h1.2]

/-- C7 counterexample: `add_manual_token` looks up a zero balance and
returns `None` without ever reaching `_clear_address_cache`, so a
cached discovery result for the same `(addr, chain)` survives the
call. -/
theorem manual_token_zero_balance_keeps_stale_cache :
    (addManualToken [("0xabc:ethereum:False:0.01", [])] true "0xabc"
        "ethereum" (some "0xdead") "TOK" 0 none).2 =
      [("0xabc:ethereum:False:0.01", [])] ∧
    ((addManualToken [("0xabc:ethereum:False:0.01", [])] true "0xabc"
        "ethereum" (some "0xdead") "TOK" 0 none).2.any
      (fun e => pyStartsWith e.1 ("0xabc" ++ ":" ++ "ethereum" ++ ":"))) =
      true := by
  constructor
  · decide
  · decide

/-- C7 (amended): the discovery cache loses every key with the
`addr:chain:` start exactly when the manual addition finds a positive
balance; a nonpositive balance, or the feature being disabled, leaves
the cache untouched. -/
theorem manual_token_cache_invalidation
    (cache : List (String × List DiscoveredToken)) (addr chain : String)
    (tokenContract : Option String) (tokenSymbol : String) (balance : ℚ)
    (price : Option ℚ) :
    (0 < balance →
      ∀ e ∈ (addManualToken cache true addr chain tokenContract tokenSymbol
          balance price).2,
        pyStartsWith e.1 (addr ++ ":" ++ chain ++ ":") = false) ∧
    (¬ 0 < balance →
      (addManualToken cache true addr chain tokenContract tokenSymbol
        balance price).2 = cache) ∧
    addManualToken cache false addr chain tokenContract tokenSymbol balance
      price = (none, cache) := by
  refine ⟨?_, ?_, ?_⟩
  · intro hb e he
    have h2 : (addManualToken cache true addr chain tokenContract tokenSymbol
        balance price).2 = clearAddressCache cache addr chain := by
      simp [addManualToken, hb]
    rw [h2, clearAddressCache] at he
    simpa using (List.mem_filter.mp he).2
  · intro hb
    simp [addManualToken, hb]
  · simp [addManualToken]

/-- C7 witness: positive balance 1 on a cache holding one key for a
different address; the surviving entry's key does not carry the cleared
`0xabc:ethereum:` start. -/
theorem manual_token_cache_invalidation_witness :
    (0 : ℚ) < 1 ∧
    pyStartsWith "other:key" ("0xabc" ++ ":" ++ "ethereum" ++ ":") = false :=
  ⟨by norm_num,
    (manual_token_cache_invalidation [("other:key", [])] "0xabc" "ethereum"
        (some "0xdead") "TOK" 1 none).1 (by norm_num) ("other:key", [])
      (by decide)⟩

/-- C9 counterexample: for the syntactically invalid address "hello"
the EVM balance path still performs the `ensure_chain_initialized`
network round-trip before any validation, and then returns the plain
float `0.0` — the same value as a legitimate empty wallet — rather than
raising a typed validation error. -/
theorem invalid_evm_address_zero_after_probe :
    isValidEthAddress "hello" = false ∧
    getEvmBalance true "hello" none 7 = (0, [NetEvent.rpcProbe]) := by
  constructor
  · decide
  · decide

/-- C9 (amended): for every invalid EVM address the balance operation
returns the value `0.0` (no error value exists on this path) after
exactly the initialization/health network round-trip; the validation
check inside the balance helpers runs only after that round-trip, and
only the balance RPC itself is skipped. -/
theorem invalid_evm_address_behaviour (address : String)
    (tokenContractAddress : Option String) (chainBalance : ℚ)
    (initOk : Bool) (h : isValidEthAddress address = false) :
    getEvmBalance initOk address tokenContractAddress chainBalance =
      (0, [NetEvent.rpcProbe]) := by
  cases initOk with
  | false => simp [getEvmBalance, ensureChainInitializedEvents]
  | true =>
    cases tokenContractAddress <;>
      simp [getEvmBalance, getNativeBalance, getErc20Balance,
        ensureChainInitializedEvents, h]

/-- C9 witness at the invalid address "not-an-address" with a contract
attached. -/
theorem invalid_evm_address_behaviour_witness :
    isValidEthAddress "not-an-address" = false ∧
    getEvmBalance true "not-an-address" (some "0xdead") 5 =
      (0, [NetEvent.rpcProbe]) :=
  ⟨by decide,
    invalid_evm_address_behaviour "not-an-address" (some "0xdead") 5 true
      (by decide)⟩

/-- C1: evaluation of the claimed operation sequence.  On an empty
database the first `add_asset` creates wallet, token and asset; the
second returns the existing asset unchanged; `delete_asset` soft
deletes it and leaves the balance-history row untouched; but the final
`add_asset` hits the table-wide `UNIQUE(wallet_id, token_id)`
constraint (the soft-deleted row still occupies the key and the insert
has no conflict handler) and raises instead of completing. -/
theorem idempotent_readd_after_soft_delete :
    addAsset ⟨[(1, "ethereum")], [], [], [], [], 1, 1⟩ "a1" "0xw" "ethereum"
        "ETH" none none =
      .ok (⟨[(1, "ethereum")], [⟨1, "0xw", 1⟩], [⟨1, "ETH", 1, none, true⟩],
        [⟨"a1", 1, 1, none, true⟩], [], 2, 2⟩, "a1") ∧
    addAsset ⟨[(1, "ethereum")], [⟨1, "0xw", 1⟩], [⟨1, "ETH", 1, none, true⟩],
        [⟨"a1", 1, 1, none, true⟩], [], 2, 2⟩ "a2" "0xw" "ethereum" "ETH"
        none none =
      .ok (⟨[(1, "ethereum")], [⟨1, "0xw", 1⟩], [⟨1, "ETH", 1, none, true⟩],
        [⟨"a1", 1, 1, none, true⟩], [], 2, 2⟩, "a1") ∧
    deleteAsset ⟨[(1, "ethereum")], [⟨1, "0xw", 1⟩],
        [⟨1, "ETH", 1, none, true⟩], [⟨"a1", 1, 1, none, true⟩],
        [("a1", 3600, 5)], 2, 2⟩ "a1" =
      (⟨[(1, "ethereum")], [⟨1, "0xw", 1⟩], [⟨1, "ETH", 1, none, true⟩],
        [⟨"a1", 1, 1, none, false⟩], [("a1", 3600, 5)], 2, 2⟩, true) ∧
    exceptIsError (addAsset ⟨[(1, "ethereum")], [⟨1, "0xw", 1⟩],
        [⟨1, "ETH", 1, none, true⟩], [⟨"a1", 1, 1, none, false⟩],
        [("a1", 3600, 5)], 2, 2⟩ "a3" "0xw" "ethereum" "ETH" none none) =
      true :=
  ⟨rfl, rfl, rfl, rfl⟩

/-- C4 counterexample: `_get_or_create_token` called while the only
matching `(symbol, blockchain, contract)` row is inactive raises (the
insert conflicts and the handler's re-read filters on `is_active = 1`),
instead of reactivating the row; and `TokenLibraryService.add_custom_token`
raises even when the matching library entry is present (active), instead
of returning it. -/
theorem duplicate_token_add_raises :
    exceptIsError (getOrCreateToken [⟨1, "ABC", 1, some "0xc", false⟩] 2
      "ABC" 1 (some "0xc")) = true ∧
    exceptIsError (addCustomToken []
      [⟨"ABC", "Abc", "ethereum", some "0xc", false⟩] "ABC" "Abc" "ethereum"
      (some "0xc")) = true := by
  constructor
  · decide
  · decide

/-- C4 (amended): `_get_or_create_token` returns a matching *active*
row; on a uniqueness-conflict race during insert it re-reads and
returns the row only when an active one exists and raises otherwise
(an inactive duplicate is never reactivated); with no conflicting row
it inserts an active, non-predefined row under the fresh rowid.
`TokenLibraryService.add_custom_token` raises for every existing
`(symbol, chain)` match, active or not. -/
theorem custom_token_add_behaviour (lookupDb insertDb : List TokenRow)
    (nextId : Nat) (symbol : String) (blockchainId : Nat)
    (contractAddress : Option String) (predefined custom : List TokenInfo)
    (sy nm ch : String) (ct : Option String) :
    (∀ tid, tokensFindActive lookupDb symbol blockchainId contractAddress =
        some tid →
      getOrCreateTokenRace lookupDb insertDb nextId symbol blockchainId
        contractAddress = .ok (insertDb, tid)) ∧
    (tokensFindActive lookupDb symbol blockchainId contractAddress = none →
      tokensInsertConflicts insertDb symbol blockchainId contractAddress =
        true →
      ∀ tid, tokensFindActive insertDb symbol blockchainId contractAddress =
          some tid →
        getOrCreateTokenRace lookupDb insertDb nextId symbol blockchainId
          contractAddress = .ok (insertDb, tid)) ∧
    (tokensFindActive lookupDb symbol blockchainId contractAddress = none →
      tokensInsertConflicts insertDb symbol blockchainId contractAddress =
        true →
      tokensFindActive insertDb symbol blockchainId contractAddress = none →
      exceptIsError (getOrCreateTokenRace lookupDb insertDb nextId symbol
        blockchainId contractAddress) = true) ∧
    (tokensFindActive lookupDb symbol blockchainId contractAddress = none →
      tokensInsertConflicts insertDb symbol blockchainId contractAddress =
        false →
      getOrCreateTokenRace lookupDb insertDb nextId symbol blockchainId
        contractAddress =
        .ok (insertDb ++ [⟨nextId, symbol, blockchainId, contractAddress,
          true⟩], nextId)) ∧
    ((findToken (predefined ++ custom) sy ch).isSome = true →
      exceptIsError (addCustomToken predefined custom sy nm ch ct) = true) := by
  refine ⟨?_, ?_, ?_, ?_, ?_⟩
  · intro tid h
    simp [getOrCreateTokenRace, h]
  · intro h1 h2 tid h3
    simp [getOrCreateTokenRace, h1, h2, h3]
  · intro h1 h2 h3
    simp [getOrCreateTokenRace, exceptIsError, h1, h2, h3]
  · intro h1 h2
    simp [getOrCreateTokenRace, h1, h2]
  · intro h
    obtain ⟨t, ht⟩ := Option.isSome_iff_exists.mp h
    simp [addCustomToken, ht, exceptIsError]

/-- C4 witness: an active duplicate is returned without error, and the
library add raises on an existing case-insensitive match. -/
theorem custom_token_add_behaviour_witness :
    (tokensFindActive [⟨1, "ABC", 1, some "0xc", true⟩] "ABC" 1 (some "0xc") =
        some 1 ∧
      getOrCreateTokenRace [⟨1, "ABC", 1, some "0xc", true⟩]
        [⟨1, "ABC", 1, some "0xc", true⟩] 2 "ABC" 1 (some "0xc") =
        .ok ([⟨1, "ABC", 1, some "0xc", true⟩], 1)) ∧
    ((findToken ([] ++ [⟨"ABC", "Abc", "ethereum", none, false⟩]) "abc"
        "Ethereum").isSome = true ∧
      exceptIsError (addCustomToken []
        [⟨"ABC", "Abc", "ethereum", none, false⟩] "abc" "N" "Ethereum" none) =
        true) :=
  ⟨⟨by decide,
      (custom_token_add_behaviour [⟨1, "ABC", 1, some "0xc", true⟩]
          [⟨1, "ABC", 1, some "0xc", true⟩] 2 "ABC" 1 (some "0xc") []
          [⟨"ABC", "Abc", "ethereum", none, false⟩] "abc" "N" "Ethereum"
          none).1 1 (by decide)⟩,
    ⟨by decide,
      (custom_token_add_behaviour [⟨1, "ABC", 1, some "0xc", true⟩]
          [⟨1, "ABC", 1, some "0xc", true⟩] 2 "ABC" 1 (some "0xc") []
          [⟨"ABC", "Abc", "ethereum", none, false⟩] "abc" "N" "Ethereum"
          none).2.2.2.2 (by decide)⟩⟩

end CryptoAsset
